import Mathlib

/-!
Shallow embedding of the causallib weight-based effect-estimation core
(`causallib/effects/calculation.py`, `causallib/propensity/computation.py`,
`causallib/validation/checks.py`, `causallib/diagnostics/reports.py`,
`causallib/diagnostics/warnings.py`), with theorems checking the
natural-language specification against the code.

Numeric values are modelled by `ℚ` (exact arithmetic, idealizing floats);
fallible code returns `Except`, with structured error values standing for the
raised exception together with the quantities interpolated into its message.
-/

set_option autoImplicit false

namespace Causallib

/-! ### `causallib/effects/calculation.py` -/

/-- A potential outcome: a population-level scalar or a per-sample vector
(the `Union[float, pd.Series]` arguments of `calculate_effect`). -/
inductive Outc where
  | s (x : ℚ)
  | v (xs : List ℚ)
deriving DecidableEq, Repr

/-- Element-wise binary operation with pandas-style scalar broadcasting. -/
def Outc.apply2 (f : ℚ → ℚ → ℚ) : Outc → Outc → Outc
  | .s a, .s b => .s (f a b)
  | .s a, .v bs => .v (bs.map (fun b => f a b))
  | .v xs, .s b => .v (xs.map (fun a => f a b))
  | .v xs, .v bs => .v (List.zipWith f xs bs)

/-- Element-wise unary operation. -/
def Outc.map1 (f : ℚ → ℚ) : Outc → Outc
  | .s x => .s (f x)
  | .v xs => .v (xs.map f)

/-- `isinstance(outcome, (int, float, np.number))`: scalar-versus-vector test
(`is_scalar_outcome` and the `is_scalar` dispatch in `calculate_effect`). -/
def Outc.isScalar : Outc → Bool
  | .s _ => true
  | .v _ => false

/-- Exceptions raised by the effect-calculation module, carrying the
quantities that the Python error messages interpolate. -/
inductive EffErr where
  | ratioScalarZero
  | ratioVectorZeros (count : Nat)
  | orScalarRange (which : String) (got : ℚ)
  | orVectorRange (which : String) (lo hi : ℚ)
  | invalidEffectTypes (invalid : List String)
  | concatTypeError
  | wrapped (effectType : String) (e : EffErr)
deriving DecidableEq, Repr

/-- Minimum of a vector (`val.min()`); only reported for nonempty vectors. -/
def listMin : List ℚ → ℚ
  | [] => 0
  | x :: xs => xs.foldl min x

/-- Maximum of a vector (`val.max()`); only reported for nonempty vectors. -/
def listMax : List ℚ → ℚ
  | [] => 0
  | x :: xs => xs.foldl max x

/-- `_effect_diff`: `outcome_1 - outcome_2`. -/
def effect_diff (o1 o2 : Outc) : Except EffErr Outc :=
  .ok (Outc.apply2 (· - ·) o1 o2)

/-- `_effect_ratio`: zero-denominator check before the division
`outcome_1 / outcome_2`. -/
def effect_ratio (o1 o2 : Outc) : Except EffErr Outc :=
  match o2 with
  | .s b =>
      if b = 0 then .error .ratioScalarZero
      else .ok (Outc.apply2 (· / ·) o1 (.s b))
  | .v bs =>
      if bs.any (fun b => decide (b = 0)) then
        .error (.ratioVectorZeros (bs.countP (fun b => decide (b = 0))))
      else .ok (Outc.apply2 (· / ·) o1 (.v bs))

/-- `_validate_probability_range` (local helper of `_effect_odds_ratio`). -/
def validate_probability_range (val : Outc) (name : String) : Except EffErr Unit :=
  match val with
  | .s x =>
      if 0 ≤ x ∧ x ≤ 1 then .ok () else .error (.orScalarRange name x)
  | .v xs =>
      if xs.any (fun x => decide (x < 0)) || xs.any (fun x => decide (1 < x)) then
        .error (.orVectorRange name (listMin xs) (listMax xs))
      else .ok ()

/-- `_effect_odds_ratio`: per-element range validation of both outcomes, then
`(o1/(1-o1)) / (o2/(1-o2))`. -/
def effect_odds_ratio (o1 o2 : Outc) : Except EffErr Outc := do
  validate_probability_range o1 "outcome_1"
  validate_probability_range o2 "outcome_2"
  let odds1 := o1.map1 (fun x => x / (1 - x))
  let odds2 := o2.map1 (fun x => x / (1 - x))
  .ok (Outc.apply2 (· / ·) odds1 odds2)

/-- `EffectType.VALID = {"diff", "ratio", "or"}`. -/
def EffectTypeVALID : List String := ["diff", "ratio", "or"]

/-- `EffectType.validate`: reject effect types outside the closed set. -/
def EffectTypeValidate (effect_types : List String) : Except EffErr (List String) :=
  let invalid := (effect_types.filter (fun t => decide (t ∉ EffectTypeVALID))).dedup
  if invalid = [] then .ok effect_types
  else .error (.invalidEffectTypes invalid)

/-- `_EFFECT_CALCULATORS` dispatch table. -/
def EFFECT_CALCULATORS (t : String) (o1 o2 : Outc) : Except EffErr Outc :=
  if t = "diff" then effect_diff o1 o2
  else if t = "ratio" then effect_ratio o1 o2
  else effect_odds_ratio o1 o2

/-- The result-accumulation loop of `calculate_effect`: compute each requested
effect type in order, aborting (with the effect type named) on the first
failure. -/
def computeEffects (o1 o2 : Outc) : List String → Except EffErr (List (String × Outc))
  | [] => .ok []
  | t :: ts =>
      match EFFECT_CALCULATORS t o1 o2 with
      | .error e => .error (.wrapped t e)
      | .ok eff =>
          match computeEffects o1 o2 ts with
          | .error e => .error e
          | .ok rest => .ok ((t, eff) :: rest)

/-- Output of `calculate_effect`: `pd.Series(results)` keyed by effect type
(population path) or the `pd.concat` table with one column per effect type
(individual path). -/
inductive CalcOutput where
  | mapping (entries : List (String × Outc))
  | table (cols : List (String × List ℚ))
deriving DecidableEq, Repr

/-- Whether a `calculate_effect` result took the per-sample-table shape. -/
def CalcOutput.isTable : CalcOutput → Bool
  | .mapping _ => false
  | .table _ => true

/-- A `pd.concat(axis="columns")` column must be a Series; a scalar entry
would raise a `TypeError`. -/
def asVec : Outc → Option (List ℚ)
  | .v xs => some xs
  | .s _ => none

/-- Assemble the `pd.concat(results, axis="columns")` table: every computed
effect must be a vector, and becomes one column. -/
def tableCols : List (String × Outc) → Option (List (String × List ℚ))
  | [] => some []
  | (t, o) :: rest =>
      match asVec o with
      | none => none
      | some xs => (tableCols rest).map (fun cs => (t, xs) :: cs)

/-- `calculate_effect(outcome_1, outcome_2, effect_types)`: validate the
requested effect types, compute each, then shape the output by
`is_scalar = isinstance(outcome_1, (int, float, np.number))`. -/
def calculate_effect (o1 o2 : Outc) (effect_types : List String) :
    Except EffErr CalcOutput := do
  let ts ← EffectTypeValidate effect_types
  let results ← computeEffects o1 o2 ts
  if o1.isScalar then
    .ok (.mapping results)
  else
    match tableCols results with
    | some cols => .ok (.table cols)
    | none => .error .concatTypeError

theorem EFFECT_CALCULATORS_diff (o1 o2 : Outc) :
    EFFECT_CALCULATORS "diff" o1 o2 = effect_diff o1 o2 := rfl

theorem EFFECT_CALCULATORS_ratio (o1 o2 : Outc) :
    EFFECT_CALCULATORS "ratio" o1 o2 = effect_ratio o1 o2 := rfl

theorem EFFECT_CALCULATORS_or (o1 o2 : Outc) :
    EFFECT_CALCULATORS "or" o1 o2 = effect_odds_ratio o1 o2 := rfl

/-- Equality of `Except` results is decidable, so concrete runs can be
checked by `decide`. -/
instance instDecidableEqExcept {ε α : Type} [DecidableEq ε] [DecidableEq α] :
    DecidableEq (Except ε α)
  | .ok a, .ok b =>
      if h : a = b then .isTrue (by rw [h]) else .isFalse (by simp [h])
  | .error a, .error b =>
      if h : a = b then .isTrue (by rw [h]) else .isFalse (by simp [h])
  | .ok _, .error _ => .isFalse (by simp)
  | .error _, .ok _ => .isFalse (by simp)

/-! ### Helper lemmas on lists -/

theorem getD_map_rat (f : ℚ → ℚ) (l : List ℚ) (i : Nat) (hi : i < l.length) :
    (l.map f).getD i 0 = f (l.getD i 0) := by
  rw [List.getD_eq_getElem _ _ (by simpa using hi), List.getD_eq_getElem _ _ hi,
    List.getElem_map]

theorem getD_zipWith_rat (f : ℚ → ℚ → ℚ) (xs bs : List ℚ) (i : Nat)
    (hx : i < xs.length) (hb : i < bs.length) :
    (List.zipWith f xs bs).getD i 0 = f (xs.getD i 0) (bs.getD i 0) := by
  have hz : i < (List.zipWith f xs bs).length := by
    rw [List.length_zipWith]; omega
  rw [List.getD_eq_getElem _ _ hz, List.getD_eq_getElem _ _ hx,
    List.getD_eq_getElem _ _ hb, List.getElem_zipWith]

theorem any_zero_iff_mem (bs : List ℚ) :
    (bs.any fun b => decide (b = 0)) = true ↔ (0 : ℚ) ∈ bs := by
  simp only [List.any_eq_true, decide_eq_true_eq]
  constructor
  · rintro ⟨x, hx, rfl⟩; exact hx
  · intro h; exact ⟨0, h, rfl⟩

theorem any_range_iff (xs : List ℚ) :
    ((xs.any fun x => decide (x < 0)) || (xs.any fun x => decide (1 < x))) = true ↔
      ∃ x ∈ xs, x < 0 ∨ 1 < x := by
  simp only [Bool.or_eq_true, List.any_eq_true, decide_eq_true_eq]
  constructor
  · rintro (⟨x, hx, hlt⟩ | ⟨x, hx, hgt⟩)
    · exact ⟨x, hx, Or.inl hlt⟩
    · exact ⟨x, hx, Or.inr hgt⟩
  · rintro ⟨x, hx, hlt | hgt⟩
    · exact Or.inl ⟨x, hx, hlt⟩
    · exact Or.inr ⟨x, hx, hgt⟩

/-! ### C5: the ratio effect's zero-denominator guard -/

/-- C5: for a vector denominator, `_effect_ratio` fails exactly when some
element of `outcome_2` is zero; the error carries the count of zero elements
(the zero test precedes the division in the source, so no quotient is formed
on the failing path); otherwise it returns the element-wise quotient
`outcome_1 / outcome_2`. -/
theorem effect_ratio_spec (xs bs : List ℚ) (hlen : xs.length = bs.length) :
    (∀ o1, (effect_ratio o1 (.v bs)).isOk = true ↔ (0 : ℚ) ∉ bs) ∧
    ((0 : ℚ) ∈ bs → ∀ o1,
      effect_ratio o1 (.v bs) =
        .error (.ratioVectorZeros (bs.countP (fun b => decide (b = 0))))) ∧
    ((0 : ℚ) ∉ bs →
      ∃ cs, effect_ratio (.v xs) (.v bs) = .ok (.v cs) ∧ cs.length = bs.length ∧
        ∀ i, i < bs.length → cs.getD i 0 = xs.getD i 0 / bs.getD i 0) := by
  refine ⟨fun o1 => ?_, fun h0 o1 => ?_, fun h0 => ?_⟩
  · by_cases h0 : (0 : ℚ) ∈ bs
    · rw [effect_ratio, if_pos ((any_zero_iff_mem bs).mpr h0)]
      simp [Except.isOk, Except.toBool, h0]
    · rw [effect_ratio, if_neg (by rw [any_zero_iff_mem]; exact h0)]
      simp [Except.isOk, Except.toBool, h0]
  · rw [effect_ratio, if_pos ((any_zero_iff_mem bs).mpr h0)]
  · rw [effect_ratio, if_neg (by rw [any_zero_iff_mem]; exact h0)]
    refine ⟨List.zipWith (· / ·) xs bs, rfl, by rw [List.length_zipWith]; omega,
      fun i hi => ?_⟩
    exact getD_zipWith_rat _ xs bs i (by omega) hi

/-- C5 witness: with denominator `[1/2, 1/4]` (no zeros) the ratio call
succeeds with the element-wise quotient. -/
theorem effect_ratio_spec_witness :
    ∃ cs, effect_ratio (.v [1, 1]) (.v [1/2, 1/4]) = .ok (.v cs) ∧
      cs.length = ([1/2, 1/4] : List ℚ).length ∧
      ∀ i, i < ([1/2, 1/4] : List ℚ).length →
        cs.getD i 0 = ([1, 1] : List ℚ).getD i 0 / ([1/2, 1/4] : List ℚ).getD i 0 :=
  (effect_ratio_spec [1, 1] [1/2, 1/4] (by norm_num)).2.2 (by norm_num)

/-! ### C6: the odds-ratio effect's probability-range guard -/

/-- C6: `_effect_odds_ratio` fails exactly when some element of either
outcome lies outside `[0, 1]`; the error names the offending outcome
(`outcome_1` checked first) and its observed `[min, max]` range; in range, it
returns `(o1/(1-o1)) / (o2/(1-o2))` element-wise. -/
theorem effect_odds_ratio_spec (xs bs : List ℚ) (hlen : xs.length = bs.length) :
    ((effect_odds_ratio (.v xs) (.v bs)).isOk = true ↔
      (∀ x ∈ xs, 0 ≤ x ∧ x ≤ 1) ∧ (∀ x ∈ bs, 0 ≤ x ∧ x ≤ 1)) ∧
    ((∃ x ∈ xs, x < 0 ∨ 1 < x) →
      effect_odds_ratio (.v xs) (.v bs) =
        .error (.orVectorRange "outcome_1" (listMin xs) (listMax xs))) ∧
    ((∀ x ∈ xs, 0 ≤ x ∧ x ≤ 1) → (∃ x ∈ bs, x < 0 ∨ 1 < x) →
      effect_odds_ratio (.v xs) (.v bs) =
        .error (.orVectorRange "outcome_2" (listMin bs) (listMax bs))) ∧
    ((∀ x ∈ xs, 0 ≤ x ∧ x ≤ 1) → (∀ x ∈ bs, 0 ≤ x ∧ x ≤ 1) →
      ∃ cs, effect_odds_ratio (.v xs) (.v bs) = .ok (.v cs) ∧
        cs.length = bs.length ∧
        ∀ i, i < bs.length →
          cs.getD i 0 =
            (xs.getD i 0 / (1 - xs.getD i 0)) / (bs.getD i 0 / (1 - bs.getD i 0))) := by
  have hrange : ∀ (l : List ℚ), (∀ x ∈ l, 0 ≤ x ∧ x ≤ 1) ↔ ¬ (∃ x ∈ l, x < 0 ∨ 1 < x) := by
    intro l
    constructor
    · rintro h ⟨x, hx, hlt | hgt⟩
      · exact absurd (h x hx).1 (not_le.mpr hlt)
      · exact absurd (h x hx).2 (not_le.mpr hgt)
    · intro h x hx
      constructor
      · by_contra hc; exact h ⟨x, hx, Or.inl (not_le.mp hc)⟩
      · by_contra hc; exact h ⟨x, hx, Or.inr (not_le.mp hc)⟩
  have hval : ∀ (l : List ℚ) (name : String),
      validate_probability_range (.v l) name =
        (if ∃ x ∈ l, x < 0 ∨ 1 < x then .error (.orVectorRange name (listMin l) (listMax l))
         else .ok ()) := by
    intro l name
    by_cases h : ∃ x ∈ l, x < 0 ∨ 1 < x
    · rw [validate_probability_range, if_pos ((any_range_iff l).mpr h), if_pos h]
    · rw [validate_probability_range, if_neg (by rw [any_range_iff]; exact h), if_neg h]
  have herr1 : (∃ x ∈ xs, x < 0 ∨ 1 < x) →
      effect_odds_ratio (.v xs) (.v bs) =
        .error (.orVectorRange "outcome_1" (listMin xs) (listMax xs)) := by
    intro h1
    rw [effect_odds_ratio]
    simp [bind, Except.bind, hval, h1]
  have herr2 : ¬ (∃ x ∈ xs, x < 0 ∨ 1 < x) → (∃ x ∈ bs, x < 0 ∨ 1 < x) →
      effect_odds_ratio (.v xs) (.v bs) =
        .error (.orVectorRange "outcome_2" (listMin bs) (listMax bs)) := by
    intro h1 h2
    rw [effect_odds_ratio]
    simp [bind, Except.bind, hval, h1, h2]
  have hok : ¬ (∃ x ∈ xs, x < 0 ∨ 1 < x) → ¬ (∃ x ∈ bs, x < 0 ∨ 1 < x) →
      effect_odds_ratio (.v xs) (.v bs) =
        .ok (.v (List.zipWith (· / ·) (xs.map (fun x => x / (1 - x)))
          (bs.map (fun x => x / (1 - x))))) := by
    intro h1 h2
    rw [effect_odds_ratio]
    simp only [bind, Except.bind, hval, if_neg h1, if_neg h2, Outc.map1, Outc.apply2]
  refine ⟨?_, herr1, fun h1 h2 => herr2 ((hrange xs).mp h1) h2,
    fun h1 h2 => ?_⟩
  · by_cases h1 : ∃ x ∈ xs, x < 0 ∨ 1 < x
    · rw [herr1 h1]
      simp only [Except.isOk, Except.toBool]
      constructor
      · intro h; exact absurd h (by simp)
      · rintro ⟨hr, -⟩; exact absurd h1 (by rw [← hrange]; exact hr)
    · by_cases h2 : ∃ x ∈ bs, x < 0 ∨ 1 < x
      · rw [herr2 h1 h2]
        simp only [Except.isOk, Except.toBool]
        constructor
        · intro h; exact absurd h (by simp)
        · rintro ⟨-, hr⟩; exact absurd h2 (by rw [← hrange]; exact hr)
      · rw [hok h1 h2]
        simp only [Except.isOk, Except.toBool, true_iff]
        exact ⟨(hrange xs).mpr h1, (hrange bs).mpr h2⟩
  · rw [hok ((hrange xs).mp h1) ((hrange bs).mp h2)]
    refine ⟨_, rfl, by simp [List.length_zipWith]; omega, fun i hi => ?_⟩
    rw [getD_zipWith_rat _ _ _ i (by simp; omega) (by simp; omega),
      getD_map_rat _ xs i (by omega), getD_map_rat _ bs i hi]

/-- C6 witness: outcomes `[1/2, 1/4]` and `[1/4, 1/2]` are valid
probabilities, so the odds ratio is computed element-wise. -/
theorem effect_odds_ratio_spec_witness :
    ∃ cs, effect_odds_ratio (.v [1/2, 1/4]) (.v [1/4, 1/2]) = .ok (.v cs) ∧
      cs.length = ([1/4, 1/2] : List ℚ).length ∧
      ∀ i, i < ([1/4, 1/2] : List ℚ).length →
        cs.getD i 0 =
          (([1/2, 1/4] : List ℚ).getD i 0 / (1 - ([1/2, 1/4] : List ℚ).getD i 0)) /
            (([1/4, 1/2] : List ℚ).getD i 0 / (1 - ([1/4, 1/2] : List ℚ).getD i 0)) :=
  (effect_odds_ratio_spec [1/2, 1/4] [1/4, 1/2] (by norm_num)).2.2.2
    (by norm_num) (by norm_num)

/-! ### C3: output shape of `calculate_effect` -/

theorem computeEffects_keys (o1 o2 : Outc) :
    ∀ (ts : List String) (rs : List (String × Outc)),
      computeEffects o1 o2 ts = .ok rs → rs.map Prod.fst = ts
  | [], rs => by
      intro h
      simp only [computeEffects] at h
      cases h
      rfl
  | t :: ts, rs => by
      intro h
      simp only [computeEffects] at h
      cases hc : EFFECT_CALCULATORS t o1 o2 with
      | error e => rw [hc] at h; cases h
      | ok eff =>
          rw [hc] at h
          cases hr : computeEffects o1 o2 ts with
          | error e => rw [hr] at h; cases h
          | ok rest =>
              rw [hr] at h
              cases h
              simp only [List.map_cons, List.cons.injEq, true_and]
              exact computeEffects_keys o1 o2 ts rest hr

theorem tableCols_keys :
    ∀ (rs : List (String × Outc)) (cols : List (String × List ℚ)),
      tableCols rs = some cols → cols.map Prod.fst = rs.map Prod.fst
  | [], cols => by
      intro h
      simp only [tableCols] at h
      cases h
      rfl
  | (t, o) :: rs, cols => by
      intro h
      simp only [tableCols] at h
      cases ha : asVec o with
      | none => rw [ha] at h; cases h
      | some xs =>
          rw [ha] at h
          cases hr : tableCols rs with
          | none => rw [hr] at h; cases h
          | some cs =>
              rw [hr] at h
              simp only [Option.map_some', Option.some.injEq] at h
              subst h
              simp only [List.map_cons, List.cons.injEq, true_and]
              exact tableCols_keys rs cs hr

/-- C3 counterexample: with a scalar `outcome_1` and a vector `outcome_2`,
`calculate_effect` returns the effect-type-keyed mapping (a `pd.Series`
holding a whole vector as one entry), not a per-sample table — the output
shape is driven by `outcome_1` alone, not by "either argument". -/
theorem calculate_effect_mixed_not_table :
    calculate_effect (.s (1/2)) (.v [1/10, 1/5]) ["diff"] =
      .ok (.mapping [("diff", .v [2/5, 3/10])]) ∧
    (calculate_effect (.s (1/2)) (.v [1/10, 1/5]) ["diff"]).map CalcOutput.isTable =
      .ok false := by
  constructor
  · norm_num [calculate_effect, EffectTypeValidate, EffectTypeVALID, computeEffects,
      EFFECT_CALCULATORS_diff, effect_diff, Outc.apply2, Outc.isScalar, bind, Except.bind]
  · norm_num [calculate_effect, EffectTypeValidate, EffectTypeVALID, computeEffects,
      EFFECT_CALCULATORS_diff, effect_diff, Outc.apply2, Outc.isScalar, bind, Except.bind,
      CalcOutput.isTable, Except.map]

/-- C3 (amended): the output shape of `calculate_effect` is decided by the
runtime type of `outcome_1` alone: a scalar `outcome_1` yields the
scalar-per-effect-type mapping and a vector `outcome_1` yields the
per-sample-per-effect-type table, in both cases with one entry/column per
requested effect type in request order. -/
theorem calculate_effect_shape (o1 o2 : Outc) (ts : List String) (out : CalcOutput)
    (h : calculate_effect o1 o2 ts = .ok out) :
    (o1.isScalar = true →
      ∃ entries, out = .mapping entries ∧ entries.map Prod.fst = ts) ∧
    (o1.isScalar = false →
      ∃ cols, out = .table cols ∧ cols.map Prod.fst = ts) := by
  rw [calculate_effect] at h
  cases hv : EffectTypeValidate ts with
  | error e => rw [hv] at h; cases h
  | ok ts2 =>
      have hts : ts2 = ts := by
        rw [EffectTypeValidate] at hv
        by_cases hi :
            ((ts.filter fun t => decide (t ∉ EffectTypeVALID)).dedup : List String) = []
        · rw [if_pos hi] at hv; cases hv; rfl
        · rw [if_neg hi] at hv; cases hv
      subst hts
      rw [hv] at h
      simp only [bind, Except.bind] at h
      cases hc : computeEffects o1 o2 ts2 with
      | error e => rw [hc] at h; cases h
      | ok rs =>
          rw [hc] at h
          have hkeys := computeEffects_keys o1 o2 ts2 rs hc
          cases ho1 : o1.isScalar with
          | true =>
              rw [ho1] at h
              simp only [if_pos] at h
              cases h
              exact ⟨fun _ => ⟨rs, rfl, hkeys⟩, fun hcon => by simp at hcon⟩
          | false =>
              rw [ho1] at h
              simp only [Bool.false_eq_true, if_false] at h
              cases ht : tableCols rs with
              | none => rw [ht] at h; cases h
              | some cols =>
                  rw [ht] at h
                  cases h
                  exact ⟨fun hcon => by simp at hcon,
                    fun _ => ⟨cols, rfl, (tableCols_keys rs cols ht).trans hkeys⟩⟩

/-- C3 witness: applying the shape theorem to the vector inputs
`y1 = [1, 2]`, `y0 = [3, 4]` with effect type `diff` shows the result is the
table with one `diff` column. -/
theorem calculate_effect_shape_witness :
    ((Outc.v [(1 : ℚ), 2]).isScalar = true →
      ∃ entries, CalcOutput.table [("diff", [-2, -2])] = .mapping entries ∧
        entries.map Prod.fst = ["diff"]) ∧
    ((Outc.v [(1 : ℚ), 2]).isScalar = false →
      ∃ cols, CalcOutput.table [("diff", [-2, -2])] = .table cols ∧
        cols.map Prod.fst = ["diff"]) :=
  calculate_effect_shape (.v [1, 2]) (.v [3, 4]) ["diff"]
    (.table [("diff", [-2, -2])])
    (by norm_num [calculate_effect, EffectTypeValidate, EffectTypeVALID, computeEffects,
      EFFECT_CALCULATORS_diff, effect_diff, Outc.apply2, Outc.isScalar, bind, Except.bind,
      tableCols, asVec])

/-! ### `causallib/propensity/computation.py` -/

/-- A propensity matrix (`pd.DataFrame`): columns labelled by treatment
values, one row of `P(A = label | X_i)` per sample. -/
structure PropensityMatrix where
  labels : List ℤ
  rows : List (List ℚ)
deriving DecidableEq, Repr

/-- Well-formedness of the DataFrame: rectangular with no duplicate column
labels. -/
def PropensityMatrix.WF (pm : PropensityMatrix) : Prop :=
  pm.labels.Nodup ∧ ∀ r ∈ pm.rows, r.length = pm.labels.length

/-- Entry `P[i, ℓ]`: row `i` at the column labelled `ℓ`. -/
def PropensityMatrix.entry (pm : PropensityMatrix) (i : Nat) (ℓ : ℤ) : ℚ :=
  (pm.rows.getD i []).getD ((pm.labels.findIdx? (fun x => decide (x = ℓ))).getD 0) 0

/-- `a.value_counts(normalize=True)` read as a function: the marginal
prevalence of treatment level `ℓ` in `a`. -/
def value_counts_normalize (a : List ℤ) (ℓ : ℤ) : ℚ :=
  (a.count ℓ : ℚ) / (a.length : ℚ)

/-- Modelled from the spec: `robust_lookup` (imported from
`causallib.utils.stat_utils`, a module whose source is not in this
snapshot) reads, for each sample, the weight-matrix column matching that
sample's own observed treatment — "a row-wise gather, not a fixed column
selection" — yielding a missing value when the observed treatment is not a
column. -/
def robust_lookup (labels : List ℤ) (rows : List (List ℚ)) (a : List ℤ) :
    List (Option ℚ) :=
  List.zipWith
    (fun ai row => (labels.findIdx? (fun x => decide (x = ai))).bind (fun j => row.get? j))
    a rows

/-- Return type of `compute_propensity_weights`: a per-sample weight Series
or a per-sample-per-level weight DataFrame. -/
inductive Weights where
  | series (ws : List (Option ℚ))
  | frame (cols : List (ℤ × List ℚ))
deriving DecidableEq, Repr

/-- `compute_propensity_weights(propensity_matrix, treatment_assignment,
treatment_values, use_stabilized, treatment_prevalence)`: element-wise
reciprocal of the propensity matrix; optionally multiplied row-wise by the
prevalence of each sample's own treatment (supplied, or else computed from
`a`); then either column selection (for requested treatment values) or the
per-sample `robust_lookup` gather of the observed-treatment column. -/
def compute_propensity_weights (pm : PropensityMatrix) (a : List ℤ)
    (treatment_values : Option (List ℤ)) (use_stabilized : Bool)
    (treatment_prevalence : Option (ℤ → ℚ)) : Except String Weights :=
  let w0 := pm.rows.map (List.map (fun p => 1 / p))
  let w1 :=
    if use_stabilized then
      let prevalence := treatment_prevalence.getD (value_counts_normalize a)
      List.zipWith (fun ai row => row.map (fun w => w * prevalence ai)) a w0
    else w0
  match treatment_values with
  | some tv =>
      match tv.mapM (fun ℓ =>
          (pm.labels.findIdx? (fun x => decide (x = ℓ))).map
            (fun j => (ℓ, w1.map (fun row => row.getD j 0)))) with
      | none => .error "treatment values not in propensity_matrix columns"
      | some cols =>
          if tv.length = 1 then .ok (.series ((cols.headD (0, [])).2.map some))
          else .ok (.frame cols)
  | none => .ok (.series (robust_lookup pm.labels w1 a))

/-- `stabilize_weights(weights, treatment_assignment)` for a weight Series:
multiply each weight by the empirical prevalence of that sample's
treatment. -/
def stabilize_weights (ws : List ℚ) (a : List ℤ) : List ℚ :=
  List.zipWith (fun w ai => w * value_counts_normalize a ai) ws a

/-! ### Generic getD helper lemmas -/

theorem getD_zipWith_of_lt {α β γ : Type} (f : α → β → γ) (xs : List α) (ys : List β)
    (d : γ) (dx : α) (dy : β) :
    ∀ (i : Nat), i < xs.length → i < ys.length →
      (List.zipWith f xs ys).getD i d = f (xs.getD i dx) (ys.getD i dy) := by
  induction xs generalizing ys with
  | nil => intro i h _; simp at h
  | cons x xs ih =>
      intro i hx hy
      cases ys with
      | nil => simp at hy
      | cons y ys =>
          cases i with
          | zero => rfl
          | succ i =>
              simp only [List.zipWith_cons_cons, List.getD_cons_succ]
              exact ih ys i (by simpa using hx) (by simpa using hy)

theorem getD_map_of_lt {α β : Type} (f : α → β) (l : List α) (d : β) (dl : α) :
    ∀ (i : Nat), i < l.length → (l.map f).getD i d = f (l.getD i dl) := by
  induction l with
  | nil => intro i h; simp at h
  | cons x xs ih =>
      intro i h
      cases i with
      | zero => rfl
      | succ i =>
          simp only [List.map_cons, List.getD_cons_succ]
          exact ih i (by simpa using h)

theorem get?_eq_some_getD {α : Type} (l : List α) (d : α) (i : Nat) (hi : i < l.length) :
    l.get? i = some (l.getD i d) := by
  rw [List.getD_eq_getElem _ _ hi, List.get?_eq_getElem?, List.getElem?_eq_getElem hi]

/-- The observed-treatment gather on any matrix whose row `i` is row `i` of
the propensity matrix transformed element-wise by `g (a_i)`: the gathered
value at sample `i` is `g (a_i)` of `P[i, a_i]`. -/
theorem robust_lookup_getD_of_rowmap (pm : PropensityMatrix) (a : List ℤ)
    (M : List (List ℚ)) (g : ℤ → ℚ → ℚ)
    (hwf : pm.WF) (hlen : a.length = pm.rows.length)
    (hmem : ∀ ℓ ∈ a, ℓ ∈ pm.labels)
    (hM : M.length = pm.rows.length)
    (hrowM : ∀ i, i < a.length → M.getD i [] = (pm.rows.getD i []).map (g (a.getD i 0))) :
    ∀ i, i < a.length →
      (robust_lookup pm.labels M a).getD i none =
        some (g (a.getD i 0) (pm.entry i (a.getD i 0))) := by
  intro i hi
  have hrows : i < pm.rows.length := by omega
  have hai : a.getD i 0 ∈ a := by
    rw [List.getD_eq_getElem _ _ hi]
    exact List.getElem_mem _
  have hex : ∃ x, x ∈ pm.labels ∧ decide (x = a.getD i 0) = true :=
    ⟨a.getD i 0, hmem _ hai, by simp⟩
  have hfind : pm.labels.findIdx? (fun x => decide (x = a.getD i 0)) =
      some (pm.labels.findIdx (fun x => decide (x = a.getD i 0))) :=
    List.findIdx?_eq_some_of_exists hex
  have hj : pm.labels.findIdx (fun x => decide (x = a.getD i 0)) < pm.labels.length :=
    List.findIdx_lt_length_of_exists hex
  have hrowmem : pm.rows.getD i [] ∈ pm.rows := by
    rw [List.getD_eq_getElem _ _ hrows]
    exact List.getElem_mem _
  have hrlen : (pm.rows.getD i []).length = pm.labels.length := hwf.2 _ hrowmem
  rw [robust_lookup,
    getD_zipWith_of_lt _ a M none 0 [] i hi (by omega), hrowM i hi, hfind,
    Option.some_bind,
    get?_eq_some_getD _ 0 _ (by rw [List.length_map, hrlen]; exact hj),
    getD_map_of_lt _ _ 0 0 _ (by rw [hrlen]; exact hj),
    PropensityMatrix.entry, hfind, Option.getD_some]

/-! ### C1: unstabilized inverse-probability weights -/

/-- C1: with `treatment_values=None` and `use_stabilized=False`, and every
observed treatment a column of the propensity matrix,
`compute_propensity_weights` returns one weight per sample, and sample `i`'s
weight is `1 / P[i, a_i]` — the reciprocal of that sample's propensity for
its own observed treatment, selected by a row-wise gather. -/
theorem compute_propensity_weights_unstabilized (pm : PropensityMatrix) (a : List ℤ)
    (hwf : pm.WF) (hlen : a.length = pm.rows.length)
    (hmem : ∀ ℓ ∈ a, ℓ ∈ pm.labels) :
    ∃ ws, compute_propensity_weights pm a none false none = .ok (.series ws) ∧
      ws.length = a.length ∧
      ∀ i, i < a.length →
        ws.getD i none = some (1 / pm.entry i (a.getD i 0)) := by
  refine ⟨robust_lookup pm.labels (pm.rows.map (List.map (fun p => 1 / p))) a, rfl,
    by rw [robust_lookup, List.length_zipWith, List.length_map]; omega, ?_⟩
  exact robust_lookup_getD_of_rowmap pm a _ (fun _ p => 1 / p) hwf hlen hmem
    (by rw [List.length_map])
    (fun i hi => getD_map_of_lt _ pm.rows [] [] i (by omega))

/-- C1 witness: a 2-sample, 2-level propensity matrix with the treatment of
sample 0 in column 1 and of sample 1 in column 0. -/
theorem compute_propensity_weights_unstabilized_witness :
    ∃ ws, compute_propensity_weights ⟨[0, 1], [[1/4, 3/4], [1/2, 1/2]]⟩ [1, 0]
        none false none = .ok (.series ws) ∧
      ws.length = ([1, 0] : List ℤ).length ∧
      ∀ i, i < ([1, 0] : List ℤ).length →
        ws.getD i none =
          some (1 / PropensityMatrix.entry ⟨[0, 1], [[1/4, 3/4], [1/2, 1/2]]⟩ i
            (([1, 0] : List ℤ).getD i 0)) :=
  compute_propensity_weights_unstabilized ⟨[0, 1], [[1/4, 3/4], [1/2, 1/2]]⟩ [1, 0]
    ⟨by decide, by decide⟩ rfl (by decide)

/-! ### C2: stabilization multiplies by treatment prevalence -/

/-- C2: the stabilized run (`use_stabilized=True`) agrees element-wise with
the prevalence of each sample's own treatment — empirical from `a`, or the
supplied precomputed prevalence — times the unstabilized run's weight. -/
theorem compute_propensity_weights_stabilized (pm : PropensityMatrix) (a : List ℤ)
    (prevOpt : Option (ℤ → ℚ)) (hwf : pm.WF) (hlen : a.length = pm.rows.length)
    (hmem : ∀ ℓ ∈ a, ℓ ∈ pm.labels) :
    ∃ ws ws', compute_propensity_weights pm a none false none = .ok (.series ws) ∧
      compute_propensity_weights pm a none true prevOpt = .ok (.series ws') ∧
      ws'.length = ws.length ∧
      ∀ i, i < a.length → ∃ u, ws.getD i none = some u ∧
        ws'.getD i none =
          some (prevOpt.getD (value_counts_normalize a) (a.getD i 0) * u) := by
  refine ⟨robust_lookup pm.labels (pm.rows.map (List.map (fun p => 1 / p))) a,
    robust_lookup pm.labels
      (List.zipWith
        (fun ai row => row.map (fun w => w * prevOpt.getD (value_counts_normalize a) ai))
        a (pm.rows.map (List.map (fun p => 1 / p)))) a,
    rfl, rfl,
    by rw [robust_lookup, robust_lookup, List.length_zipWith, List.length_zipWith,
      List.length_zipWith, List.length_map]; omega, ?_⟩
  intro i hi
  refine ⟨1 / pm.entry i (a.getD i 0), ?_, ?_⟩
  · exact robust_lookup_getD_of_rowmap pm a _ (fun _ p => 1 / p) hwf hlen hmem
      (by rw [List.length_map])
      (fun k hk => getD_map_of_lt _ pm.rows [] [] k (by omega)) i hi
  · rw [robust_lookup_getD_of_rowmap pm a _
      (fun ai p => (1 / p) * prevOpt.getD (value_counts_normalize a) ai) hwf hlen hmem
      (by rw [List.length_zipWith, List.length_map]; omega)
      (fun k hk => ?_) i hi]
    · rw [mul_comm]
    · rw [getD_zipWith_of_lt _ a _ [] 0 [] k hk (by rw [List.length_map]; omega),
        getD_map_of_lt _ pm.rows [] [] k (by omega), List.map_map]
      rfl

/-- C2 witness: the stabilized weights of the concrete instance equal the
treatment prevalences (1/2 each) times the unstabilized weights. -/
theorem compute_propensity_weights_stabilized_witness :
    ∃ ws ws', compute_propensity_weights ⟨[0, 1], [[1/4, 3/4], [1/2, 1/2]]⟩ [1, 0]
        none false none = .ok (.series ws) ∧
      compute_propensity_weights ⟨[0, 1], [[1/4, 3/4], [1/2, 1/2]]⟩ [1, 0]
        none true none = .ok (.series ws') ∧
      ws'.length = ws.length ∧
      ∀ i, i < ([1, 0] : List ℤ).length → ∃ u, ws.getD i none = some u ∧
        ws'.getD i none =
          some ((Option.none).getD (value_counts_normalize [1, 0])
            (([1, 0] : List ℤ).getD i 0) * u) :=
  compute_propensity_weights_stabilized ⟨[0, 1], [[1/4, 3/4], [1/2, 1/2]]⟩ [1, 0]
    none ⟨by decide, by decide⟩ rfl (by decide)

/-! ### C7: propensity-score clipping -/

/-- `clip_min` validation of `_validate_clip_bounds`: `clip_min ∈ [0, 0.5]`. -/
def checkClipMin : Option ℚ → Except String Unit
  | none => .ok ()
  | some lo =>
      if 0 ≤ lo ∧ lo ≤ 1/2 then .ok ()
      else .error "clip_min must be in [0, 0.5]"

/-- `clip_max` validation of `_validate_clip_bounds`: `clip_max ∈ [0.5, 1]`. -/
def checkClipMax : Option ℚ → Except String Unit
  | none => .ok ()
  | some hi =>
      if 1/2 ≤ hi ∧ hi ≤ 1 then .ok ()
      else .error "clip_max must be in [0.5, 1]"

/-- Order validation of `_validate_clip_bounds`: `clip_min < clip_max` when
both are given. -/
def checkClipOrder : Option ℚ → Option ℚ → Except String Unit
  | some lo, some hi =>
      if lo ≥ hi then .error "clip_min must be < clip_max" else .ok ()
  | _, _ => .ok ()

/-- `_validate_clip_bounds(clip_min, clip_max)`: the three sequential
checks. -/
def validate_clip_bounds (clip_min clip_max : Option ℚ) : Except String Unit :=
  match checkClipMin clip_min with
  | .error e => .error e
  | .ok _ =>
      match checkClipMax clip_max with
      | .error e => .error e
      | .ok _ => checkClipOrder clip_min clip_max

/-- `propensity_matrix.size`: the number of entries. -/
def matrixSize (rows : List (List ℚ)) : Nat :=
  (rows.map List.length).sum

/-- The statistics of `clip_propensity_scores`: values clipped to
`clip_min`, values clipped to `clip_max`, percentage of all entries
clipped. -/
structure ClipStats where
  n_clipped_min : Nat
  n_clipped_max : Nat
  pct_clipped : ℚ
deriving DecidableEq, Repr

/-- `clip_propensity_scores(propensity_matrix, clip_min, clip_max)`:
validate the bounds, clip below `clip_min` (counting the strictly-below
entries), then clip that result above `clip_max` (counting the
strictly-above entries), and return the clipped matrix with statistics. -/
def clip_propensity_scores (rows : List (List ℚ)) (clip_min clip_max : Option ℚ) :
    Except String (List (List ℚ) × ClipStats) :=
  match validate_clip_bounds clip_min clip_max with
  | .error e => .error e
  | .ok _ =>
      let n_total := matrixSize rows
      let step1 :=
        match clip_min with
        | none => (rows, 0)
        | some lo =>
            (rows.map (List.map fun x => if x < lo then lo else x),
              (rows.map (fun row : List ℚ => row.countP fun x => decide (x < lo))).sum)
      let step2 :=
        match clip_max with
        | none => (step1.1, 0)
        | some hi =>
            (step1.1.map (List.map fun x => if hi < x then hi else x),
              (step1.1.map (fun row : List ℚ => row.countP fun x => decide (hi < x))).sum)
      .ok (step2.1, ⟨step1.2, step2.2,
        ((step1.2 + step2.2 : ℚ) / (n_total : ℚ)) * 100⟩)

theorem map_eq_self_of_forall {α : Type} (f : α → α) :
    ∀ (l : List α), (∀ x ∈ l, f x = x) → l.map f = l
  | [], _ => rfl
  | x :: xs, h => by
      rw [List.map_cons, h x (List.mem_cons_self x xs),
        map_eq_self_of_forall f xs (fun y hy => h y (List.mem_cons_of_mem x hy))]

theorem clip_lo_le (lo y : ℚ) : lo ≤ if y < lo then lo else y := by
  split_ifs with h
  · exact le_refl lo
  · exact le_of_not_lt h

theorem clip_hi_ge (hi y : ℚ) : (if hi < y then hi else y) ≤ hi := by
  split_ifs with h
  · exact le_refl hi
  · exact le_of_not_lt h

theorem clip_hi_keeps_lo (lo hi y : ℚ) (hlh : lo ≤ hi) (hy : lo ≤ y) :
    lo ≤ if hi < y then hi else y := by
  split_ifs with h
  · exact hlh
  · exact hy

theorem matrix_clip_lo_id (lo : ℚ) (m : List (List ℚ))
    (h : ∀ row ∈ m, ∀ x ∈ row, lo ≤ x) :
    m.map (List.map fun x => if x < lo then lo else x) = m :=
  map_eq_self_of_forall _ m (fun row hrow =>
    map_eq_self_of_forall _ row (fun x hx => if_neg (not_lt.mpr (h row hrow x hx))))

theorem matrix_clip_hi_id (hi : ℚ) (m : List (List ℚ))
    (h : ∀ row ∈ m, ∀ x ∈ row, x ≤ hi) :
    m.map (List.map fun x => if hi < x then hi else x) = m :=
  map_eq_self_of_forall _ m (fun row hrow =>
    map_eq_self_of_forall _ row (fun x hx => if_neg (not_lt.mpr (h row hrow x hx))))

theorem matrix_count_lt_zero (lo : ℚ) (m : List (List ℚ))
    (h : ∀ row ∈ m, ∀ x ∈ row, lo ≤ x) :
    (m.map (fun row => row.countP fun x => decide (x < lo))).sum = 0 := by
  apply List.sum_eq_zero
  intro n hn
  obtain ⟨row, hrow, rfl⟩ := List.mem_map.mp hn
  rw [List.countP_eq_zero]
  intro x hx
  simp [not_lt.mpr (h row hrow x hx)]

theorem matrix_count_gt_zero (hi : ℚ) (m : List (List ℚ))
    (h : ∀ row ∈ m, ∀ x ∈ row, x ≤ hi) :
    (m.map (fun row => row.countP fun x => decide (hi < x))).sum = 0 := by
  apply List.sum_eq_zero
  intro n hn
  obtain ⟨row, hrow, rfl⟩ := List.mem_map.mp hn
  rw [List.countP_eq_zero]
  intro x hx
  simp [not_lt.mpr (h row hrow x hx)]

/-- C7: clipping an already-clipped matrix again with the same valid bounds
returns it unchanged and reports zero values newly clipped low, zero newly
clipped high, and zero percent clipped. -/
theorem clip_propensity_scores_idempotent (rows : List (List ℚ))
    (clip_min clip_max : Option ℚ) (r : List (List ℚ)) (st : ClipStats)
    (hc : clip_propensity_scores rows clip_min clip_max = .ok (r, st)) :
    clip_propensity_scores r clip_min clip_max = .ok (r, ⟨0, 0, 0⟩) := by
  have hv : validate_clip_bounds clip_min clip_max = .ok () := by
    rw [clip_propensity_scores.eq_def] at hc
    cases h : validate_clip_bounds clip_min clip_max with
    | error e => rw [h] at hc; cases hc
    | ok u => cases u; rfl
  have horder : ∀ lo hi, clip_min = some lo → clip_max = some hi → lo ≤ hi := by
    intro lo hi h1 h2
    by_contra hnot
    rw [validate_clip_bounds, h1, h2] at hv
    have hge : lo ≥ hi := le_of_not_le hnot
    simp only [checkClipMin, checkClipMax, checkClipOrder] at hv
    split_ifs at hv
  rw [clip_propensity_scores.eq_def, hv] at hc
  rw [clip_propensity_scores.eq_def, hv]
  cases hmin : clip_min with
  | none =>
      cases hmax : clip_max with
      | none =>
          rw [hmin, hmax] at hc
          simp only [Except.ok.injEq, Prod.mk.injEq] at hc
          obtain ⟨hr, -⟩ := hc
          subst hr
          simp only
          norm_num
      | some hi =>
          rw [hmin, hmax] at hc
          simp only [Except.ok.injEq, Prod.mk.injEq] at hc
          obtain ⟨hr, -⟩ := hc
          subst hr
          have hb : ∀ row ∈ rows.map (List.map fun x => if hi < x then hi else x),
              ∀ x ∈ row, x ≤ hi := by
            intro row hrow x hx
            obtain ⟨row0, -, rfl⟩ := List.mem_map.mp hrow
            obtain ⟨y, -, rfl⟩ := List.mem_map.mp hx
            exact clip_hi_ge hi y
          simp only
          rw [matrix_clip_hi_id hi _ hb, matrix_count_gt_zero hi _ hb]
          norm_num
  | some lo =>
      cases hmax : clip_max with
      | none =>
          rw [hmin, hmax] at hc
          simp only [Except.ok.injEq, Prod.mk.injEq] at hc
          obtain ⟨hr, -⟩ := hc
          subst hr
          have hb : ∀ row ∈ rows.map (List.map fun x => if x < lo then lo else x),
              ∀ x ∈ row, lo ≤ x := by
            intro row hrow x hx
            obtain ⟨row0, -, rfl⟩ := List.mem_map.mp hrow
            obtain ⟨y, -, rfl⟩ := List.mem_map.mp hx
            exact clip_lo_le lo y
          simp only
          rw [matrix_clip_lo_id lo _ hb, matrix_count_lt_zero lo _ hb]
          norm_num
      | some hi =>
          rw [hmin, hmax] at hc
          simp only [Except.ok.injEq, Prod.mk.injEq] at hc
          obtain ⟨hr, -⟩ := hc
          subst hr
          have hlh : lo ≤ hi := horder lo hi hmin hmax
          have hlo : ∀ row ∈ (rows.map (List.map fun x => if x < lo then lo else x)).map
              (List.map fun x => if hi < x then hi else x), ∀ x ∈ row, lo ≤ x := by
            intro row hrow x hx
            obtain ⟨row1, hrow1, rfl⟩ := List.mem_map.mp hrow
            obtain ⟨y, hy, rfl⟩ := List.mem_map.mp hx
            obtain ⟨row0, -, rfl⟩ := List.mem_map.mp hrow1
            obtain ⟨z, -, rfl⟩ := List.mem_map.mp hy
            exact clip_hi_keeps_lo lo hi _ hlh (clip_lo_le lo z)
          have hhi : ∀ row ∈ (rows.map (List.map fun x => if x < lo then lo else x)).map
              (List.map fun x => if hi < x then hi else x), ∀ x ∈ row, x ≤ hi := by
            intro row hrow x hx
            obtain ⟨row1, hrow1, rfl⟩ := List.mem_map.mp hrow
            obtain ⟨y, hy, rfl⟩ := List.mem_map.mp hx
            exact clip_hi_ge hi y
          simp only
          rw [matrix_clip_lo_id lo _ hlo, matrix_count_lt_zero lo _ hlo,
            matrix_clip_hi_id hi _ hhi, matrix_count_gt_zero hi _ hhi]
          norm_num

/-- C7 witness: the matrix `[[1/10, 9/10]]` clips under bounds `[1/5, 4/5]`
to `[[1/5, 4/5]]`; clipping that result again changes nothing and reports
zero clipped. -/
theorem clip_propensity_scores_idempotent_witness :
    clip_propensity_scores [[1/5, 4/5]] (some (1/5)) (some (4/5)) =
      .ok ([[1/5, 4/5]], ⟨0, 0, 0⟩) :=
  clip_propensity_scores_idempotent [[1/10, 9/10]] (some (1/5)) (some (4/5))
    [[1/5, 4/5]] ⟨1, 1, 100⟩
    (by norm_num [clip_propensity_scores, validate_clip_bounds, checkClipMin,
      checkClipMax, checkClipOrder, matrixSize])

/-! ### `causallib/validation/checks.py` -/

/-- A `pd.DataFrame` as the validation gate sees it: an index of sample
identifiers and one row per sample. -/
structure XFrame where
  idx : List ℤ
  rows : List (List ℚ)
deriving DecidableEq, Repr

/-- A `pd.Series`: an index and one value per sample; `none` is a missing
entry (NaN). -/
structure SeriesQ where
  idx : List ℤ
  vals : List (Option ℚ)
deriving DecidableEq, Repr

/-- The exceptions of `causallib/validation/exceptions.py` raised by the
checks, with the quantities their messages interpolate. `alignment*`
constructors stand for `DataAlignmentError`; the others for
`CausallibValidationError` (the `isinstance` structural checks cannot fail
in this typed embedding). -/
inductive CheckErr where
  | alignmentLength (nX na : Nat)
  | alignmentIndex
  | missingTreatment (n : Nat)
  | alignmentLengthY (nX ny : Nat)
  | alignmentIndexY
  | excessiveMissingY (pct : ℚ)
  | degenerateTreatment (n : Nat)
deriving DecidableEq, Repr

/-- Whether an error is a `DataAlignmentError`. -/
def CheckErr.isAlignment : CheckErr → Bool
  | .alignmentLength _ _ => true
  | .alignmentIndex => true
  | .alignmentLengthY _ _ => true
  | .alignmentIndexY => true
  | _ => false

/-- `a.isnull().sum()`. -/
def SeriesQ.nMissing (s : SeriesQ) : Nat := s.vals.countP (·.isNone)

/-- `a.nunique()`: number of distinct non-missing values. -/
def SeriesQ.nunique (s : SeriesQ) : Nat := (s.vals.filterMap id).dedup.length

/-- `check_X_a(X, a)`: same length, aligned indices (same order and values),
no missing treatment; returns the pair unchanged. -/
def check_X_a (X : XFrame) (a : SeriesQ) : Except CheckErr (XFrame × SeriesQ) :=
  if X.idx.length ≠ a.idx.length then
    .error (.alignmentLength X.idx.length a.idx.length)
  else if X.idx ≠ a.idx then .error .alignmentIndex
  else if a.vals.any (·.isNone) then .error (.missingTreatment a.nMissing)
  else .ok (X, a)

/-- `check_X_a_y(X, a, y)`: `check_X_a`, then, when `y` is supplied, length
and index alignment of `y` against `X` and the >50%-missing-outcome check (a
below-threshold missing fraction only warns). -/
def check_X_a_y (X : XFrame) (a : SeriesQ) (y : Option SeriesQ) :
    Except CheckErr (XFrame × SeriesQ × Option SeriesQ) :=
  match check_X_a X a with
  | .error e => .error e
  | .ok _ =>
      match y with
      | none => .ok (X, a, none)
      | some ys =>
          if ys.idx.length ≠ X.idx.length then
            .error (.alignmentLengthY X.idx.length ys.idx.length)
          else if ys.idx ≠ X.idx then .error .alignmentIndexY
          else
            let pct := (ys.nMissing : ℚ) / (ys.idx.length : ℚ) * 100
            if 0 < ys.nMissing ∧ 50 < pct then .error (.excessiveMissingY pct)
            else .ok (X, a, some ys)

/-- `check_consistent_treatment_vector(a)`: no missing values, at least two
distinct values (the numeric inf/NaN check cannot fire over `ℚ` once no
entry is missing). -/
def check_consistent_treatment_vector (a : SeriesQ) : Except CheckErr Unit :=
  if a.vals.any (·.isNone) then .error (.missingTreatment a.nMissing)
  else if a.nunique < 2 then .error (.degenerateTreatment a.nunique)
  else .ok ()

/-! ### C4: the degenerate-treatment check -/

/-- C4 counterexample: the validation gate `check_X_a_y` accepts a
well-aligned input whose treatment vector has a single distinct level — the
fewer-than-2-distinct-levels check is not part of the gate (it lives only in
the separate `check_consistent_treatment_vector`). -/
theorem check_X_a_y_accepts_degenerate :
    check_X_a_y ⟨[0, 1], [[1], [2]]⟩ ⟨[0, 1], [some 0, some 0]⟩ none =
      .ok (⟨[0, 1], [[1], [2]]⟩, ⟨[0, 1], [some 0, some 0]⟩, none) ∧
    SeriesQ.nunique ⟨[0, 1], [some 0, some 0]⟩ = 1 := by
  constructor
  · rfl
  · rfl

/-- C4 (amended): `check_X_a_y` performs no degenerate-treatment check; the
separate `check_consistent_treatment_vector` enforces it: on a treatment
vector with no missing entries it accepts exactly when there are at least 2
distinct values, and rejects reporting the distinct-value count
otherwise. -/
theorem check_consistent_treatment_vector_spec (a : SeriesQ)
    (hnomiss : a.vals.all (·.isSome) = true) :
    (check_consistent_treatment_vector a = .ok () ↔ 2 ≤ a.nunique) ∧
    (a.nunique < 2 →
      check_consistent_treatment_vector a =
        .error (.degenerateTreatment a.nunique)) := by
  have hnone : a.vals.any (·.isNone) = false := by
    rw [List.any_eq_false]
    intro v hv
    have h2 := List.all_eq_true.mp hnomiss v hv
    cases v
    · cases h2
    · simp
  constructor
  · rw [check_consistent_treatment_vector, hnone]
    simp only [Bool.false_eq_true, if_false]
    by_cases h : a.nunique < 2
    · rw [if_pos h]
      constructor
      · intro hco; cases hco
      · intro hle; omega
    · rw [if_neg h]
      constructor
      · intro _; omega
      · intro _; rfl
  · intro h
    rw [check_consistent_treatment_vector, hnone]
    simp only [Bool.false_eq_true, if_false]
    rw [if_pos h]

/-- C4 witness: the two-valued vector `[0, 1]` passes the consistency
check, and the constant vector `[0, 0]` is rejected with its distinct-value
count 1. -/
theorem check_consistent_treatment_vector_spec_witness :
    (check_consistent_treatment_vector ⟨[0, 1], [some 0, some 1]⟩ = .ok () ↔
      2 ≤ SeriesQ.nunique ⟨[0, 1], [some 0, some 1]⟩) ∧
    (SeriesQ.nunique ⟨[0, 1], [some 0, some 1]⟩ < 2 →
      check_consistent_treatment_vector ⟨[0, 1], [some 0, some 1]⟩ =
        .error (.degenerateTreatment (SeriesQ.nunique ⟨[0, 1], [some 0, some 1]⟩))) :=
  check_consistent_treatment_vector_spec ⟨[0, 1], [some 0, some 1]⟩ rfl

/-! ### C8: index alignment is checked beyond length -/

/-- C8: whenever the sample identifiers of `X` and `a` differ in content or
order, `check_X_a` fails with a `DataAlignmentError` — in particular when
the lengths agree but the identifiers differ. -/
theorem check_X_a_alignment (X : XFrame) (a : SeriesQ) (h : X.idx ≠ a.idx) :
    ∃ e, check_X_a X a = .error e ∧ e.isAlignment = true := by
  rw [check_X_a]
  by_cases hlen : X.idx.length = a.idx.length
  · rw [if_neg (by simp [hlen]), if_pos h]
    exact ⟨.alignmentIndex, rfl, rfl⟩
  · rw [if_pos hlen]
    exact ⟨.alignmentLength X.idx.length a.idx.length, rfl, rfl⟩

/-- C8 witness: `X` indexed `[0, 1, 2]` against `a` indexed `[5, 6, 7]` —
equal lengths — is rejected with an alignment error. -/
theorem check_X_a_alignment_witness :
    ∃ e, check_X_a ⟨[0, 1, 2], [[1], [2], [3]]⟩
        ⟨[5, 6, 7], [some 0, some 1, some 0]⟩ = .error e ∧ e.isAlignment = true :=
  check_X_a_alignment ⟨[0, 1, 2], [[1], [2], [3]]⟩
    ⟨[5, 6, 7], [some 0, some 1, some 0]⟩ (by decide)

/-! ### `causallib/diagnostics/reports.py` -/

/-- `np.median`: middle of the sorted values, or the average of the two
middles. -/
def listMedian (l : List ℚ) : ℚ :=
  let sorted := l.mergeSort (fun x y => decide (x ≤ y))
  let n := l.length
  if n % 2 = 1 then sorted.getD (n / 2) 0
  else (sorted.getD (n / 2 - 1) 0 + sorted.getD (n / 2) 0) / 2

/-- The `WeightDistribution` report dataclass. `np.std` is irrational in
general, so the report carries its square `var_weight` (the variance); the
`mean ± 3·std` extremity test is represented by the equivalent squared
comparison `(x - mean)² > 9·var`. -/
structure WeightDistribution where
  min_weight : ℚ
  max_weight : ℚ
  mean_weight : ℚ
  median_weight : ℚ
  var_weight : ℚ
  n_weights : Nat
  n_extreme : Nat
  pct_extreme : ℚ
  effective_sample_size : Option ℚ
deriving DecidableEq, Repr

/-- `compute_weight_distribution(weights)`: drop missing values, fail on an
empty result, then report min/max/mean/median/variance, the count outside
`mean ± 3·std`, and Kish's effective sample size `(Σw)²/Σw²` (`None` unless
`Σw² > 0`). -/
def compute_weight_distribution (weights : List (Option ℚ)) :
    Except String WeightDistribution :=
  let w := weights.filterMap id
  if w.length = 0 then .error "No valid weights provided"
  else
    let n := w.length
    let mean := w.sum / (n : ℚ)
    let var := (w.map (fun x => (x - mean)^2)).sum / (n : ℚ)
    let n_extreme := w.countP (fun x => decide ((x - mean)^2 > 9 * var))
    let sum_w := w.sum
    let sum_w2 := (w.map (fun x => x^2)).sum
    .ok
      { min_weight := listMin w
        max_weight := listMax w
        mean_weight := mean
        median_weight := listMedian w
        var_weight := var
        n_weights := n
        n_extreme := n_extreme
        pct_extreme := 100 * (n_extreme : ℚ) / (n : ℚ)
        effective_sample_size :=
          if sum_w2 > 0 then some (sum_w^2 / sum_w2) else none }

/-! ### C9: Kish effective sample size -/

/-- C9: over the weights left after dropping missing values,
`compute_weight_distribution` reports Kish's `ESS = (Σw)²/Σw²`, and `null`
exactly when `Σw² = 0`; for the equal weights `[1, 1, 1, 1]` the reported
ESS is 4. -/
theorem compute_weight_distribution_ess (weights : List (Option ℚ))
    (h : (weights.filterMap id).length ≠ 0) :
    (∃ wd, compute_weight_distribution weights = .ok wd ∧
      wd.effective_sample_size =
        (if ((weights.filterMap id).map (fun x => x^2)).sum = 0 then none
         else some (((weights.filterMap id).sum)^2 /
           ((weights.filterMap id).map (fun x => x^2)).sum))) ∧
    (∃ wd4, compute_weight_distribution [some 1, some 1, some 1, some 1] = .ok wd4 ∧
      wd4.effective_sample_size = some 4) := by
  constructor
  · refine ⟨_, by rw [compute_weight_distribution, if_neg h], ?_⟩
    have hnn : (0 : ℚ) ≤ ((weights.filterMap id).map (fun x => x^2)).sum :=
      List.sum_nonneg (by
        intro x hx
        obtain ⟨y, -, rfl⟩ := List.mem_map.mp hx
        exact sq_nonneg y)
    by_cases hz : ((weights.filterMap id).map (fun x => x^2)).sum = 0
    · simp [hz]
    · have hpos := lt_of_le_of_ne hnn (Ne.symm hz)
      simp [hz, hpos]
  · refine ⟨_, by rw [compute_weight_distribution, if_neg (by decide)], ?_⟩
    norm_num [List.filterMap]

/-- C9 witness: for the weight vector `[1, 1, 1, 1]` (no missing values)
the report exists and its effective sample size follows Kish's formula,
evaluating to 4. -/
theorem compute_weight_distribution_ess_witness :
    (∃ wd, compute_weight_distribution [some 1, some 1, some 1, some 1] = .ok wd ∧
      wd.effective_sample_size =
        (if ((([some 1, some 1, some 1, some 1] : List (Option ℚ)).filterMap id).map
            (fun x => x^2)).sum = 0 then none
         else some (((([some 1, some 1, some 1, some 1] : List (Option ℚ)).filterMap
             id).sum)^2 /
           ((([some 1, some 1, some 1, some 1] : List (Option ℚ)).filterMap id).map
             (fun x => x^2)).sum))) ∧
    (∃ wd4, compute_weight_distribution [some 1, some 1, some 1, some 1] = .ok wd4 ∧
      wd4.effective_sample_size = some 4) :=
  compute_weight_distribution_ess [some 1, some 1, some 1, some 1] (by decide)

/-! ### `causallib/diagnostics/warnings.py`: the warning accumulator -/

/-- The process heap of Python list objects holding warning messages:
`cells` is the arena (a reference is an index), `accRef` the cell the
module-level `_warning_accumulator` name currently points at. -/
structure WarnHeap where
  cells : List (List String)
  accRef : Nat
deriving DecidableEq, Repr

/-- Module load: `_warning_accumulator: List[str] = []`. -/
def initWarnState : WarnHeap := ⟨[[]], 0⟩

/-- The accumulator's current contents. -/
def readAcc (st : WarnHeap) : List String := st.cells.getD st.accRef []

/-- `accumulate_warning(message)`: `_warning_accumulator.append(message)` —
in-place append to the cell the accumulator points at. -/
def accumulate_warning (msg : String) (st : WarnHeap) : WarnHeap :=
  ⟨st.cells.set st.accRef (readAcc st ++ [msg]), st.accRef⟩

/-- `clear_accumulated_warnings()`: `_warning_accumulator = []` — rebind the
module-level name to a freshly allocated empty list (the old object is not
touched). -/
def clear_accumulated_warnings (st : WarnHeap) : WarnHeap :=
  ⟨st.cells ++ [[]], st.cells.length⟩

/-- `get_accumulated_warnings()`: `return _warning_accumulator.copy()` —
allocate a fresh cell holding a copy of the log and hand back a reference to
it. -/
def get_accumulated_warnings (st : WarnHeap) : Nat × WarnHeap :=
  (st.cells.length, ⟨st.cells ++ [readAcc st], st.accRef⟩)

/-- A caller mutating, in place, a list object it holds a reference to. -/
def mutateList (r : Nat) (f : List String → List String) (st : WarnHeap) : WarnHeap :=
  ⟨st.cells.set r (f (st.cells.getD r [])), st.accRef⟩

/-- The accumulator's two mutating operations. -/
inductive AccOp where
  | accumulate (msg : String)
  | clear
deriving DecidableEq, Repr

/-- Run a sequence of accumulator operations from module load (the head
operation is performed last). -/
def runOps : List AccOp → WarnHeap
  | [] => initWarnState
  | op :: ops =>
      match op with
      | .accumulate m => accumulate_warning m (runOps ops)
      | .clear => clear_accumulated_warnings (runOps ops)

theorem getD_append_left_of_lt {α : Type} (l1 l2 : List α) (d : α) (i : Nat)
    (hi : i < l1.length) : (l1 ++ l2).getD i d = l1.getD i d := by
  rw [List.getD_eq_getElem _ _ (by rw [List.length_append]; omega),
    List.getD_eq_getElem _ _ hi]
  exact List.getElem_append_left hi

theorem getD_set_ne {α : Type} (l : List α) (i j : Nat) (x : α) (d : α)
    (hne : i ≠ j) : (l.set i x).getD j d = l.getD j d := by
  by_cases hj : j < l.length
  · rw [List.getD_eq_getElem _ _ (by rw [List.length_set]; exact hj),
      List.getD_eq_getElem _ _ hj]
    exact List.getElem_set_ne hne _
  · rw [List.getD_eq_default _ _ (by rw [List.length_set]; omega),
      List.getD_eq_default _ _ (by omega)]

/-- Every reachable accumulator state points inside the heap. -/
theorem runOps_accRef_lt (ops : List AccOp) :
    (runOps ops).accRef < (runOps ops).cells.length := by
  induction ops with
  | nil => exact Nat.zero_lt_one
  | cons op ops ih =>
      cases op with
      | accumulate m =>
          simp only [runOps, accumulate_warning, List.length_set]
          exact ih
      | clear =>
          simp only [runOps, clear_accumulated_warnings, List.length_append,
            List.length_cons, List.length_nil]
          omega

/-- C10: after any sequence of `accumulate_warning` /
`clear_accumulated_warnings` operations, `get_accumulated_warnings` hands
out a reference to a fresh copy of the log: the copy holds the log's
contents, mutating it leaves the accumulator unchanged (a subsequent read
sees the same contents), and only `accumulate_warning` (appending one
message) and `clear_accumulated_warnings` (emptying the log) change the
accumulator. -/
theorem get_accumulated_warnings_fresh_copy (ops : List AccOp)
    (f : List String → List String) (m : String) :
    ((get_accumulated_warnings (runOps ops)).2.cells.getD
        (get_accumulated_warnings (runOps ops)).1 [] = readAcc (runOps ops)) ∧
    (readAcc (mutateList (get_accumulated_warnings (runOps ops)).1 f
        (get_accumulated_warnings (runOps ops)).2) = readAcc (runOps ops)) ∧
    (readAcc (get_accumulated_warnings (runOps ops)).2 = readAcc (runOps ops)) ∧
    (readAcc (runOps (.accumulate m :: ops)) = readAcc (runOps ops) ++ [m]) ∧
    (readAcc (runOps (.clear :: ops)) = []) := by
  have hlt := runOps_accRef_lt ops
  refine ⟨?_, ?_, ?_, ?_, ?_⟩
  · simp only [get_accumulated_warnings]
    rw [List.getD_eq_getElem _ _ (by simp),
      List.getElem_append_right (le_refl _)]
    simp
  · simp only [get_accumulated_warnings, mutateList, readAcc]
    rw [getD_set_ne _ _ _ _ _ (by omega)]
    exact getD_append_left_of_lt _ _ _ _ hlt
  · simp only [get_accumulated_warnings, readAcc]
    exact getD_append_left_of_lt _ _ _ _ hlt
  · show readAcc (accumulate_warning m (runOps ops)) = readAcc (runOps ops) ++ [m]
    simp only [accumulate_warning, readAcc]
    rw [List.getD_eq_getElem _ _ (by rw [List.length_set]; exact hlt)]
    exact List.getElem_set_self _
  · show readAcc (clear_accumulated_warnings (runOps ops)) = []
    simp only [clear_accumulated_warnings, readAcc]
    rw [List.getD_eq_getElem _ _ (by simp)]
    rw [List.getElem_append_right (le_refl _)]
    simp

end Causallib
